import Mathlib

/-!
Verification of `vite-plugin-astro-prerender`.

Shallow embedding of the plugin's build-time pipeline (content cache,
renderer strategies, stylesheet generator, per-component pipeline step)
and of the client-side `LazyHTMLLoader` (retrying fetch, in-memory
caches, statistics).  Each definition is translated from one source
function of the repository; external collaborators (the Astro compiler,
Tailwind/PostCSS, the DOM, the network) enter as explicit parameters at
exactly the interface the source calls them through.

JavaScript strings are modelled as Lean `String` / `List Char`; JS `Map`
and `Set` are modelled as association lists / insertion-ordered
duplicate-free lists, which is faithful to their iteration-order
semantics.  JS numbers used as counters are `Nat`; durations coming
from `performance.now()` are `ℚ`.
-/

namespace Prerender

/-! ## Content cache — `src/utils/cache.ts` (`CacheManager`)

The cache is a string-keyed map from component path to content hash
(`flat-cache` / plain `Map` in the two implementations; both behave as
a key-value map with `get` returning `undefined` for a missing key).
-/

/-- A JS `Map<string,string>`: association list, first binding wins on
lookup, `set` overwrites in place (keys stay unique). -/
abbrev CacheMap := List (String × String)

namespace CacheManager

/-- `this.cache.get(componentPath)` / `this.cache.getKey(componentPath)`:
`some` the stored hash, `none` for a missing entry (JS `undefined`). -/
def get (c : CacheMap) (path : String) : Option String :=
  (List.find? (fun e => e.1 == path) c).map (fun e => e.2)

/-- `isCached(componentPath, hash)`: `this.cache.get(componentPath) === hash`.
A missing entry gives `undefined === hash`, which is `false` for every
string `hash`. -/
def isCached (c : CacheMap) (path hash : String) : Bool :=
  match get c path with
  | some v => v == hash
  | none => false

/-- `set(componentPath, hash)`: `Map.set` upserts, keeping the key's
original position when it already exists. -/
def set (c : CacheMap) (path hash : String) : CacheMap :=
  if List.any c (fun e => e.1 == path) then
    List.map (fun e => if e.1 == path then (path, hash) else e) c
  else
    c ++ [(path, hash)]

end CacheManager

/-! ## Renderer outcomes and the per-component pipeline step —
`src/index.ts` (`processComponent`)

A renderer call (`ContainerRenderer.render` / `ParserRenderer.render`)
either throws, returns `null` (the container renderer's "cannot handle
this, fall back" signal), or returns an HTML string.  The string `""`
is falsy in JS, so the orchestrator's `if (html)` treats it like `null`.
-/

inductive RenderOutcome where
  | ok (html : String)
  | nullResult
  | err (msg : String)
deriving DecidableEq

/-- JS truthiness of the `html` string variable in `processComponent`. -/
def truthy (h : String) : Bool := !(h == "")

/-- The value of the local `html` variable after
`let html = await componentRenderer.render(path)` followed by
`if (!html && parserFallback) html = await parserFallback.render(path)`:
`Except.error` when a renderer threw (propagating to the outer catch),
otherwise the final value (`none` = JS `null`). -/
def runRenderers (primary : RenderOutcome) (fallback : Option RenderOutcome) :
    Except String (Option String) :=
  match primary with
  | RenderOutcome.err e => Except.error e
  | RenderOutcome.ok h =>
    if truthy h then Except.ok (some h)
    else
      match fallback with
      | some (RenderOutcome.err e) => Except.error e
      | some (RenderOutcome.ok h2) => Except.ok (some h2)
      | some RenderOutcome.nullResult => Except.ok none
      | none => Except.ok (some h)
  | RenderOutcome.nullResult =>
    match fallback with
    | some (RenderOutcome.err e) => Except.error e
    | some (RenderOutcome.ok h2) => Except.ok (some h2)
    | some RenderOutcome.nullResult => Except.ok none
    | none => Except.ok none

/-- Observable result of one `processComponent` call: the content cache
afterwards and whether a fragment file was written. -/
structure PassResult where
  cache : CacheMap
  wroteFragment : Bool
deriving DecidableEq

/-- `processComponent(componentPath)` from `src/index.ts`, as a function
of the cache state, the component's current content hash, the outcomes
of the configured renderer and of the parser fallback (if configured),
and whether the fragment write itself fails.  All throws inside the
`try` land in the outer `catch`, which only logs — in particular the
cache is only advanced by `cacheManager.set` after a successful write. -/
def processComponent (cache : CacheMap) (path hash : String)
    (primary : RenderOutcome) (fallback : Option RenderOutcome)
    (writeFails : Bool) : PassResult :=
  if CacheManager.isCached cache path hash then
    { cache := cache, wroteFragment := false }
  else
    match runRenderers primary fallback with
    | Except.error _ => { cache := cache, wroteFragment := false }
    | Except.ok htmlVal =>
      match htmlVal with
      | some h =>
        if truthy h then
          if writeFails then { cache := cache, wroteFragment := false }
          else { cache := CacheManager.set cache path hash, wroteFragment := true }
        else { cache := cache, wroteFragment := false }
      | none => { cache := cache, wroteFragment := false }

/-- Failure of one pipeline step in the sense of §4.5 / §7: a renderer
threw, or both strategies yielded no (truthy) HTML. -/
def renderingFailed (primary : RenderOutcome) (fallback : Option RenderOutcome) : Bool :=
  match runRenderers primary fallback with
  | Except.error _ => true
  | Except.ok none => true
  | Except.ok (some h) => !(truthy h)

/-! ## Theorems for C3 and C4 -/

/-- C4: `CacheManager.isCached(path, hash)` returns true iff the cache
holds an entry for `path` whose stored value is string-equal to `hash`;
in particular a missing entry yields `false`. -/
theorem isCached_iff (c : CacheMap) (path hash : String) :
    (CacheManager.isCached c path hash = true ↔ CacheManager.get c path = some hash) ∧
    (CacheManager.get c path = none → CacheManager.isCached c path hash = false) := by
  constructor
  · unfold CacheManager.isCached
    cases h : CacheManager.get c path with
    | none => simp
    | some v => simp [beq_iff_eq]
  · intro h
    unfold CacheManager.isCached
    rw [h]

/-- Witness for `isCached_iff` at a concrete cache: a matching entry is
reported cached, a missing path is not. -/
theorem isCached_iff_witness :
    CacheManager.isCached [("a.astro", "h1")] "a.astro" "h1" = true ∧
    CacheManager.isCached [("a.astro", "h1")] "b.astro" "h1" = false :=
  ⟨(isCached_iff [("a.astro", "h1")] "a.astro" "h1").1.mpr (by decide),
   (isCached_iff [("a.astro", "h1")] "b.astro" "h1").2 (by decide)⟩

/-- C3: when processing a component fails (renderer threw, or both
strategies yielded no HTML), `processComponent` leaves the content
cache unchanged, so the component is retried on the next pass. -/
theorem processComponent_failed_cache_unchanged
    (cache : CacheMap) (path hash : String)
    (primary : RenderOutcome) (fallback : Option RenderOutcome) (writeFails : Bool)
    (hfail : renderingFailed primary fallback = true) :
    (processComponent cache path hash primary fallback writeFails).cache = cache := by
  unfold processComponent
  by_cases hc : CacheManager.isCached cache path hash = true
  · simp [hc]
  · simp only [Bool.not_eq_true] at hc
    simp only [hc]
    unfold renderingFailed at hfail
    cases hr : runRenderers primary fallback with
    | error e => simp
    | ok htmlVal =>
      cases htmlVal with
      | none => simp
      | some h =>
        rw [hr] at hfail
        simp only [Bool.not_eq_true'] at hfail
        simp [hfail]

/-- Witness for `processComponent_failed_cache_unchanged`: a parse error
from the only configured renderer leaves a concrete cache untouched. -/
theorem processComponent_failed_cache_unchanged_witness :
    renderingFailed (RenderOutcome.err "parse failure") none = true ∧
    (processComponent [("other.astro", "h0")] "a.astro" "h1"
      (RenderOutcome.err "parse failure") none false).cache = [("other.astro", "h0")] :=
  ⟨by decide,
   processComponent_failed_cache_unchanged [("other.astro", "h0")] "a.astro" "h1"
     (RenderOutcome.err "parse failure") none false (by decide)⟩

/-! ## Stylesheet generator — `src/utils/css-generator.ts` (`CSSGenerator`)

State: `classes : Set<string>` (a JS `Set` iterates in insertion order
and deduplicates, so it is an insertion-ordered duplicate-free list)
and `componentStyles : string[]`.  `generate` hands the Tailwind/PostCSS
collaborator the config override built from `Array.from(this.classes)`
(the `content.raw` string and the `safelist` array) together with the
css text (Tailwind directives plus concatenated component styles), and
writes the collaborator's output. -/

namespace CSSGenerator

/-- `this.classes.add(cls)`: a JS `Set` keeps insertion order and drops
duplicates. -/
def addClass (s : List String) (cls : String) : List String :=
  if cls ∈ s then s else s ++ [cls]

/-- `addClasses(classes)`: `classes.forEach((cls) => this.classes.add(cls))`. -/
def addClasses (s : List String) (classes : List String) : List String :=
  List.foldl addClass s classes

end CSSGenerator

/-- What `generate` passes to the external Tailwind/PostCSS pipeline:
the `content: [{ raw }]` override, the `safelist` array (both built
from `classArray = Array.from(this.classes)`), and the css source text
(`@tailwind` directives followed by the component styles). -/
structure TailwindInput where
  contentRaw : String
  safelist : List String
  cssContent : String
deriving DecidableEq

/-- The `content.raw` string: `classArray.map((cls) => ...).join('\n')`. -/
def tailwindRawOf (classArray : List String) : String :=
  String.intercalate "\n"
    (classArray.map (fun cls => "<div class=\"" ++ cls ++ "\"></div>"))

/-- The css text handed to PostCSS: the three `@tailwind` directives,
then (when any component styles accumulated) the comment header and the
styles joined with blank lines. -/
def tailwindCssContentOf (componentStyles : List String) : String :=
  "\n@tailwind base;\n@tailwind components;\n@tailwind utilities;\n" ++
    (if componentStyles.length > 0 then
      "\n/* Component Styles */\n" ++ String.intercalate "\n\n" componentStyles
    else "")

/-- The full collaborator input built by `generate`'s Tailwind branch. -/
def tailwindInputOf (classArray : List String) (componentStyles : List String) :
    TailwindInput :=
  { contentRaw := tailwindRawOf classArray
    safelist := classArray
    cssContent := tailwindCssContentOf componentStyles }

/-- Observable effect of one `generate(outputPath)` call: the file
writes performed and whether the call rethrew an error. -/
structure GenResult where
  writes : List (String × String)
  errored : Bool
deriving DecidableEq

/-- `CSSGenerator.generate(outputPath)` from `src/utils/css-generator.ts`,
parameterised by the external Tailwind/PostCSS collaborator `compile`
(which may fail: a dynamic-import, config-load or PostCSS error is
rethrown after logging).  `generateTailwind` is the constructor's
`generateTailwind` flag. -/
def CSSGenerator.generate (generateTailwind : Bool)
    (compile : TailwindInput → Except String String)
    (classes : List String) (componentStyles : List String)
    (outputPath : String) : GenResult :=
  -- `classArray = Array.from(this.classes)` is the set's insertion-ordered
  -- contents, i.e. `classes` itself in this model
  let classArray : List String := classes
  if classArray.length = 0 ∧ componentStyles.length = 0 then
    -- logger.warn only; no write
    { writes := [], errored := false }
  else if ¬generateTailwind ∧ componentStyles.length > 0 then
    { writes := [(outputPath,
        "/* Component Styles */\n" ++ String.intercalate "\n\n" componentStyles)]
      errored := false }
  else if ¬generateTailwind ∧ classArray.length > 0 then
    -- warn about disabled Tailwind; componentStyles is empty here, so the
    -- inner `if (this.componentStyles.length > 0)` write never fires
    if componentStyles.length > 0 then
      { writes := [(outputPath,
          "/* Component Styles */\n" ++ String.intercalate "\n\n" componentStyles)]
        errored := false }
    else { writes := [], errored := false }
  else
    match compile (tailwindInputOf classArray componentStyles) with
    | Except.ok css => { writes := [(outputPath, css)], errored := false }
    | Except.error _ => { writes := [], errored := true }

/-! ## Theorems for C6 and C7 -/

/-- Membership after a single JS `Set.add`. -/
theorem mem_addClass (s : List String) (c x : String) :
    x ∈ CSSGenerator.addClass s c ↔ x ∈ s ∨ x = c := by
  unfold CSSGenerator.addClass
  by_cases h : c ∈ s
  · simp only [h, if_true]
    constructor
    · exact fun hx => Or.inl hx
    · rintro (hx | rfl)
      · exact hx
      · exact h
  · simp [h]

/-- Membership after `addClasses`: exactly the old members plus the
newly added classes. -/
theorem mem_addClasses (cs : List String) (s : List String) (x : String) :
    x ∈ CSSGenerator.addClasses s cs ↔ x ∈ s ∨ x ∈ cs := by
  induction cs generalizing s with
  | nil => simp [CSSGenerator.addClasses]
  | cons c cs ih =>
    unfold CSSGenerator.addClasses at ih ⊢
    rw [List.foldl_cons, ih, mem_addClass]
    simp only [List.mem_cons]
    tauto

/-- `addClass` preserves freedom from duplicates. -/
theorem nodup_addClass (s : List String) (c : String) (h : s.Nodup) :
    (CSSGenerator.addClass s c).Nodup := by
  unfold CSSGenerator.addClass
  by_cases hc : c ∈ s
  · simpa [hc]
  · simp only [hc, if_false]
    rw [List.nodup_append]
    exact ⟨h, List.nodup_singleton c, by simpa using hc⟩

/-- `addClasses` preserves freedom from duplicates. -/
theorem nodup_addClasses (cs : List String) (s : List String) (h : s.Nodup) :
    (CSSGenerator.addClasses s cs).Nodup := by
  induction cs generalizing s with
  | nil => simpa [CSSGenerator.addClasses]
  | cons c cs ih =>
    unfold CSSGenerator.addClasses at ih ⊢
    rw [List.foldl_cons]
    exact ih _ (nodup_addClass s c h)

/-- C6: for a fixed style-block list, permuting the order the classes
were added to the generator produces byte-identical `generate` output,
provided the external Tailwind collaborator honours its §6 contract —
its output depends only on the allowed class *set* (and the css text),
not on the order the safelist array lists it. -/
theorem generate_order_independent
    (generateTailwind : Bool)
    (compile : TailwindInput → Except String String)
    (hcompile : ∀ i₁ i₂ : TailwindInput, i₁.safelist.toFinset = i₂.safelist.toFinset →
      i₁.cssContent = i₂.cssContent → compile i₁ = compile i₂)
    (componentStyles : List String) (outputPath : String)
    (cs₁ cs₂ : List String) (hperm : cs₁.Perm cs₂) :
    CSSGenerator.generate generateTailwind compile
      (CSSGenerator.addClasses [] cs₁) componentStyles outputPath =
    CSSGenerator.generate generateTailwind compile
      (CSSGenerator.addClasses [] cs₂) componentStyles outputPath := by
  have hmem : ∀ x, x ∈ CSSGenerator.addClasses [] cs₁ ↔ x ∈ CSSGenerator.addClasses [] cs₂ := by
    intro x
    rw [mem_addClasses, mem_addClasses]
    exact or_congr Iff.rfl ⟨fun h => hperm.mem_iff.mp h, fun h => hperm.mem_iff.mpr h⟩
  have hnd₁ : (CSSGenerator.addClasses [] cs₁).Nodup := nodup_addClasses cs₁ [] List.nodup_nil
  have hnd₂ : (CSSGenerator.addClasses [] cs₂).Nodup := nodup_addClasses cs₂ [] List.nodup_nil
  have hfin : (CSSGenerator.addClasses [] cs₁).toFinset =
      (CSSGenerator.addClasses [] cs₂).toFinset := by
    apply Finset.ext
    intro x
    simpa [List.mem_toFinset] using hmem x
  have hlen : (CSSGenerator.addClasses [] cs₁).length =
      (CSSGenerator.addClasses [] cs₂).length := by
    have h₁ := List.toFinset_card_of_nodup hnd₁
    have h₂ := List.toFinset_card_of_nodup hnd₂
    rw [← h₁, ← h₂, hfin]
  simp only [CSSGenerator.generate]
  rw [hlen, hcompile (tailwindInputOf (CSSGenerator.addClasses [] cs₁) componentStyles)
    (tailwindInputOf (CSSGenerator.addClasses [] cs₂) componentStyles)
    (by simpa [tailwindInputOf] using hfin) rfl]

/-- Witness for `generate_order_independent`: a concrete set-respecting
collaborator and the class lists `["a","b"]` and `["b","a"]`. -/
theorem generate_order_independent_witness :
    CSSGenerator.generate true (fun _ => Except.ok "CSS")
      (CSSGenerator.addClasses [] ["a", "b"]) ["s1"] "out.css" =
    CSSGenerator.generate true (fun _ => Except.ok "CSS")
      (CSSGenerator.addClasses [] ["b", "a"]) ["s1"] "out.css" :=
  generate_order_independent true (fun _ => Except.ok "CSS")
    (fun _ _ _ _ => rfl) ["s1"] "out.css" ["a", "b"] ["b", "a"] (by decide)

/-- C7: with no accumulated classes and no accumulated style blocks,
`generate` writes no file and returns without error, whatever the
Tailwind flag and collaborator. -/
theorem generate_empty_noop (generateTailwind : Bool)
    (compile : TailwindInput → Except String String) (outputPath : String) :
    CSSGenerator.generate generateTailwind compile [] [] outputPath =
      { writes := [], errored := false } := by
  unfold CSSGenerator.generate
  simp

/-! ## Client loader: retrying fetch — `src/utils/LazyLoader.ts`
(`LazyHTMLLoader.fetchWithRetry`)

A `fetch(url)` either resolves with a `Response` (possibly non-ok) or
rejects (network error).  The outcome of each attempt is supplied by an
oracle `outcomes : Nat → FetchOutcome` indexed by the 1-based attempt
number. -/

/-- The fields of a `Response` that `fetchWithRetry`/`load` read. -/
structure FetchResponse where
  ok : Bool
  status : Nat
  body : String
deriving DecidableEq

/-- Outcome of one `await fetch(url)`. -/
inductive FetchOutcome where
  | resp (r : FetchResponse)
  | netError (msg : String)
deriving DecidableEq

/-- The loop body of `fetchWithRetry`, one iteration per `attempt` from
`1` to `retries`.  Faithful to the source's control flow: every `throw`
inside the loop's `try` block is caught by the enclosing `catch`, which
rethrows only when `attempt === retries` — including the
`throw new Error('Not found')` of the 404 branch, which is therefore
swallowed and retried whenever attempts remain.  Returns the result plus
the number of fetch attempts actually issued.  `fuel` bounds the
recursion; it starts at `retries + 1 ≥` the number of remaining
iterations, so the bound is never the reason the loop stops. -/
def fetchWithRetryGo (outcomes : Nat → FetchOutcome) (retries : Nat) :
    Nat → Nat → Except String FetchResponse × Nat
  | _, 0 => (Except.error "Failed to fetch after all attempts", retries)
  | attempt, fuel + 1 =>
    if attempt > retries then
      -- loop exhausted: `throw new Error('Failed to fetch ... after ... attempts')`
      (Except.error "Failed to fetch after all attempts", retries)
    else
      match outcomes attempt with
      | FetchOutcome.resp r =>
        if r.ok then (Except.ok r, attempt)
        else if attempt = retries then
          -- `throw new Error('HTTP status')`, rethrown by the catch
          (Except.error ("HTTP " ++ toString r.status), attempt)
        else if r.status = 404 then
          -- `throw new Error('Not found: url')` — but this lands in the
          -- same function's catch, where `attempt !== retries`, so it is
          -- logged and the loop retries
          fetchWithRetryGo outcomes retries (attempt + 1) fuel
        else
          fetchWithRetryGo outcomes retries (attempt + 1) fuel
      | FetchOutcome.netError e =>
        if attempt = retries then (Except.error e, attempt)
        else fetchWithRetryGo outcomes retries (attempt + 1) fuel

/-- `fetchWithRetry(url, retries)`: run the attempt loop from attempt 1. -/
def fetchWithRetry (outcomes : Nat → FetchOutcome) (retries : Nat) :
    Except String FetchResponse × Nat :=
  fetchWithRetryGo outcomes retries 1 (retries + 1)

/-- An attempt oracle for C1's failing input: the server answers the
first attempt with HTTP 404 and every later attempt with HTTP 200. -/
def outcomes404ThenOk : Nat → FetchOutcome
  | 1 => FetchOutcome.resp { ok := false, status := 404, body := "" }
  | _ => FetchOutcome.resp { ok := true, status := 200, body := "late" }

/-- C1 (code bug): with the default `maxRetries = 3`, a 404 on the first
attempt does NOT fail immediately — the `Not found` throw is swallowed
by `fetchWithRetry`'s own catch, a second fetch is issued, and the call
resolves with the second response.  This contradicts the source's own
`// Don't retry on 404` comment and the spec's "never retried". -/
theorem fetch404_is_retried :
    fetchWithRetry outcomes404ThenOk 3 =
      (Except.ok { ok := true, status := 200, body := "late" }, 2) := by
  rfl

/-! ## HTML cleaning — `utils` (`cleanHTML`, regex implementation)

The regex implementation of `cleanHTML` applies three global
`String.replace` calls and a `trim`:

  1. `/<script\b[^<]*(?:(?!<\/script>)<[^<]*)*<\/script>/gi` → `''`
  2. `/\s*data-astro-source-[^=]*="[^"]*"/g` → `''`
  3. `/<style\b[^<]*(?:(?!<\/style>)<[^<]*)*<\/style>/gi` → `''`

Pattern 1 (and 3) matches from a case-insensitive `<script` (followed by
a non-word character, the `\b`) to the first case-insensitive
`</script>` after it; the body between them is arbitrary, because any
text decomposes into `<`-separated chunks and the lookahead only rules
out consuming the closing tag itself.  Pattern 2 matches a run of
whitespace, the literal `data-astro-source-`, the non-`=` characters up
to the first `=`, then `="…"` up to the next `"`.  JS global replace
scans left to right, does not rescan replacement text, and continues
after each match — exactly what `scanReplaceAux` does. -/

/-- JS `\s` on the characters that occur in HTML text (space, tab, CR,
LF, vertical tab, form feed); also the whitespace `String.trim` strips. -/
def isJsSpace (c : Char) : Bool :=
  c == ' ' || c == '\t' || c == '\n' || c == '\r' ||
    c == Char.ofNat 11 || c == Char.ofNat 12

/-- JS `\w`: `[A-Za-z0-9_]`. -/
def isWordChar (c : Char) : Bool :=
  (c ≥ 'a' && c ≤ 'z') || (c ≥ 'A' && c ≤ 'Z') || (c ≥ '0' && c ≤ '9') || c == '_'

/-- Case-insensitive prefix test (`pat` is given lowercase). -/
def lcPrefix (pat l : List Char) : Bool :=
  ((l.take pat.length).map Char.toLower) == pat

/-- Case-sensitive prefix test. -/
def litPrefix (pat l : List Char) : Bool :=
  l.take pat.length == pat

/-- Scan for the first case-insensitive occurrence of `closePat`; return
the remainder after it. -/
def findCloseCI (closePat : List Char) : List Char → Option (List Char)
  | [] => none
  | c :: rest =>
    if lcPrefix closePat (c :: rest) then
      some (List.drop closePat.length (c :: rest))
    else findCloseCI closePat rest

/-- Does the element-removal regex (`<tag\b …first… </tag>`) match at
the head of `l`?  On a match, the replacement is empty and the
remainder starts after the closing tag. -/
def matchTagAt (openPat closePat : List Char) (l : List Char) :
    Option (List Char × List Char) :=
  if lcPrefix openPat l then
    match List.drop openPat.length l with
    | [] => none
    | c :: rest =>
      if isWordChar c then none  -- `\b` fails
      else
        match findCloseCI closePat (c :: rest) with
        | some rem => some ([], rem)
        | none => none
  else none

/-- Pattern 1's matcher. -/
def matchScriptAt (l : List Char) : Option (List Char × List Char) :=
  matchTagAt "<script".toList "</script>".toList l

/-- Pattern 3's matcher. -/
def matchStyleAt (l : List Char) : Option (List Char × List Char) :=
  matchTagAt "<style".toList "</style>".toList l

/-- Pattern 2's matcher (`\s*data-astro-source-[^=]*="[^"]*"`). -/
def matchAstroAt (l : List Char) : Option (List Char × List Char) :=
  let ws := l.takeWhile isJsSpace
  let rest := List.drop ws.length l
  if litPrefix "data-astro-source-".toList rest then
    let afterLit := List.drop 18 rest
    let name := afterLit.takeWhile (fun c => !(c == '='))
    match List.drop name.length afterLit with
    | '=' :: '"' :: r4 =>
      let inner := r4.takeWhile (fun c => !(c == '"'))
      match List.drop inner.length r4 with
      | '"' :: r6 => some ([], r6)
      | _ => none
    | _ => none
  else none

/-- One JS global `String.replace`: scan left to right; at a match emit
the replacement and continue after the matched text, otherwise keep one
character and continue.  `fuel` starts at the list's length; since each
step consumes at least one character of the input, the bound is never
the reason scanning stops. -/
def scanReplaceAux (matchAt : List Char → Option (List Char × List Char)) :
    Nat → List Char → List Char
  | 0, l => l
  | _ + 1, [] => []
  | fuel + 1, c :: rest =>
    match matchAt (c :: rest) with
    | some (rep, rem) => rep ++ scanReplaceAux matchAt fuel rem
    | none => c :: scanReplaceAux matchAt fuel rest

/-- No position of `l` starts a match of `matchAt`. -/
def noMatchAnywhere (matchAt : List Char → Option (List Char × List Char)) :
    List Char → Bool
  | [] => true
  | c :: rest => (matchAt (c :: rest)).isNone && noMatchAnywhere matchAt rest

/-- JS `String.prototype.trim`. -/
def jsTrim (l : List Char) : List Char :=
  ((l.dropWhile isJsSpace).reverse.dropWhile isJsSpace).reverse

/-- `cleanHTML(html)` (regex implementation): remove script elements,
remove `data-astro-source-*` attributes, remove style elements, trim. -/
def cleanHTMLChars (html : List Char) : List Char :=
  let h1 := scanReplaceAux matchScriptAt html.length html
  let h2 := scanReplaceAux matchAstroAt h1.length h1
  let h3 := scanReplaceAux matchStyleAt h2.length h2
  jsTrim h3

/-- `cleanHTML` on `String`s. -/
def cleanHTML (html : String) : String :=
  String.mk (cleanHTMLChars html.data)

/-! ## Theorems for C5 -/

/-- Input on which `cleanHTML` is not idempotent: deleting the embedded
`<script>a</script>` splices the surrounding text into a brand-new
`<script>b</script>` element, which only a second pass removes. -/
def spliceInput : String := "<sc<script>a</script>ript>b</script>"

/-- C5 counterexample: `cleanHTML` is not idempotent.  On
`spliceInput`, one pass yields `<script>b</script>` and a second pass
yields the empty string. -/
theorem cleanHTML_not_idempotent :
    cleanHTML (cleanHTML spliceInput) ≠ cleanHTML spliceInput := by
  decide

/-- If no position matches, a global replace is the identity. -/
theorem scanReplaceAux_id
    (matchAt : List Char → Option (List Char × List Char)) :
    ∀ (fuel : Nat) (l : List Char), noMatchAnywhere matchAt l = true →
      scanReplaceAux matchAt fuel l = l := by
  intro fuel
  induction fuel with
  | zero => intro l _; rfl
  | succ fuel ih =>
    intro l h
    cases l with
    | nil => rfl
    | cons c rest =>
      unfold noMatchAnywhere at h
      rw [Bool.and_eq_true] at h
      unfold scanReplaceAux
      rw [Option.isNone_iff_eq_none.mp h.1]
      rw [ih rest h.2]

/-- `dropWhile` is idempotent. -/
theorem dropWhile_self_idem (p : Char → Bool) (l : List Char) :
    List.dropWhile p (List.dropWhile p l) = List.dropWhile p l := by
  induction l with
  | nil => rfl
  | cons a l ih =>
    by_cases h : p a = true
    · rw [List.dropWhile_cons_of_pos h, ih]
    · rw [List.dropWhile_cons_of_neg (by simpa using h),
        List.dropWhile_cons_of_neg (by simpa using h)]

/-- `dropWhile` over an append. -/
theorem dropWhile_append_eq (p : Char → Bool) (l₁ l₂ : List Char) :
    List.dropWhile p (l₁ ++ l₂) =
      if (List.dropWhile p l₁).isEmpty then List.dropWhile p l₂
      else List.dropWhile p l₁ ++ l₂ := by
  induction l₁ with
  | nil => simp
  | cons a l ih =>
    by_cases h : p a = true
    · rw [List.cons_append, List.dropWhile_cons_of_pos h,
        List.dropWhile_cons_of_pos h, ih]
    · rw [List.cons_append, List.dropWhile_cons_of_neg (by simpa using h),
        List.dropWhile_cons_of_neg (by simpa using h)]
      simp

/-- `dropWhile` never lengthens a list. -/
theorem dropWhile_len_le (p : Char → Bool) (l : List Char) :
    (List.dropWhile p l).length ≤ l.length := by
  induction l with
  | nil => simp
  | cons a l ih =>
    by_cases h : p a = true
    · rw [List.dropWhile_cons_of_pos h]
      exact Nat.le_trans ih (Nat.le_succ _)
    · rw [List.dropWhile_cons_of_neg (by simpa using h)]

/-- A list that `dropWhile` leaves unchanged stays unchanged after
right-trimming. -/
theorem dropWhile_of_rtrimmed (p : Char → Bool) (m : List Char)
    (h : List.dropWhile p m = m) :
    List.dropWhile p ((List.dropWhile p m.reverse).reverse) =
      (List.dropWhile p m.reverse).reverse := by
  cases m with
  | nil => simp
  | cons a m' =>
    have ha : p a = false := by
      by_contra hpa
      rw [Bool.not_eq_false] at hpa
      rw [List.dropWhile_cons_of_pos hpa] at h
      have hlen := congrArg List.length h
      have hle := dropWhile_len_le p m'
      simp only [List.length_cons] at hlen
      omega
    have hone : List.dropWhile p [a] = [a] :=
      List.dropWhile_cons_of_neg (by simp [ha])
    rw [List.reverse_cons, dropWhile_append_eq]
    by_cases he : (List.dropWhile p m'.reverse).isEmpty = true
    · rw [if_pos he, hone, List.reverse_singleton, hone]
    · rw [if_neg (by simpa using he), List.reverse_append,
        List.reverse_singleton, List.singleton_append,
        List.dropWhile_cons_of_neg (by simp [ha])]

/-- `jsTrim` is idempotent. -/
theorem jsTrim_idem (l : List Char) : jsTrim (jsTrim l) = jsTrim l := by
  unfold jsTrim
  set p := isJsSpace
  set m := List.dropWhile p l with hm
  have hmm : List.dropWhile p m = m := by rw [hm, dropWhile_self_idem]
  rw [dropWhile_of_rtrimmed p m hmm, List.reverse_reverse,
    dropWhile_self_idem]

/-- C5 (amended): `cleanHTML` is idempotent on every input whose cleaned
result is a fixed point of the three removal patterns — no further
script-element match, `data-astro-source` attribute match, or
style-element match.  (The unrestricted claim fails:
`cleanHTML_not_idempotent`.) -/
theorem cleanHTMLChars_idem (z : List Char)
    (h1 : noMatchAnywhere matchScriptAt (cleanHTMLChars z) = true)
    (h2 : noMatchAnywhere matchAstroAt (cleanHTMLChars z) = true)
    (h3 : noMatchAnywhere matchStyleAt (cleanHTMLChars z) = true) :
    cleanHTMLChars (cleanHTMLChars z) = cleanHTMLChars z := by
  set y := cleanHTMLChars z with hy
  have e1 : scanReplaceAux matchScriptAt y.length y = y :=
    scanReplaceAux_id matchScriptAt y.length y h1
  have e2 : scanReplaceAux matchAstroAt y.length y = y :=
    scanReplaceAux_id matchAstroAt y.length y h2
  have e3 : scanReplaceAux matchStyleAt y.length y = y :=
    scanReplaceAux_id matchStyleAt y.length y h3
  obtain ⟨w, hw⟩ : ∃ w, y = jsTrim w := ⟨_, hy⟩
  calc cleanHTMLChars y = jsTrim y := by
        unfold cleanHTMLChars
        simp only [e1, e2, e3]
    _ = y := by rw [hw, jsTrim_idem]

/-- C5 (amended), `String` level. -/
theorem cleanHTML_idem_on_removal_fixed_points (x : String)
    (h1 : noMatchAnywhere matchScriptAt (cleanHTML x).data = true)
    (h2 : noMatchAnywhere matchAstroAt (cleanHTML x).data = true)
    (h3 : noMatchAnywhere matchStyleAt (cleanHTML x).data = true) :
    cleanHTML (cleanHTML x) = cleanHTML x := by
  show String.mk (cleanHTMLChars (cleanHTMLChars x.data)) =
    String.mk (cleanHTMLChars x.data)
  exact congrArg String.mk (cleanHTMLChars_idem x.data h1 h2 h3)

/-- Witness for `cleanHTML_idem_on_removal_fixed_points` on a concrete
document containing whitespace and a class attribute. -/
theorem cleanHTML_idem_witness :
    (noMatchAnywhere matchScriptAt (cleanHTML " <div class=\"a\">hi</div> ").data = true) ∧
    (noMatchAnywhere matchAstroAt (cleanHTML " <div class=\"a\">hi</div> ").data = true) ∧
    (noMatchAnywhere matchStyleAt (cleanHTML " <div class=\"a\">hi</div> ").data = true) ∧
    cleanHTML (cleanHTML " <div class=\"a\">hi</div> ") =
      cleanHTML " <div class=\"a\">hi</div> " :=
  ⟨by decide, by decide, by decide,
   cleanHTML_idem_on_removal_fixed_points " <div class=\"a\">hi</div> "
     (by decide) (by decide) (by decide)⟩

/-! ## Structural (parser) renderer — `parser-renderer`

The repository carries two implementations of the structural renderer:
the JS `//parser-renderer` module and the TS `src/utils/parser-renderer.ts`
that `src/index.ts` imports.  The external `@astrojs/compiler` `parse`
capability is out of scope (§6); its output is modelled by `RootNode` /
`AstroNode`, with exactly the fields the renderers read (`frontmatter.value`,
`node.type`, `node.name`, `node.value`, `node.attributes`, `node.children`).
-/

inductive AttrKind where
  | quoted
  | emptyAttr
  | otherKind
deriving DecidableEq

structure AstroAttr where
  kind : AttrKind
  name : String
  value : String
deriving DecidableEq

inductive AstroNode where
  | text (value : String)
  | element (name : String) (attributes : List AstroAttr) (children : List AstroNode)
  | component (name : String)
  | expression (value : String)
  | frontmatterNode (value : String)
  | styleNode (attributes : List AstroAttr) (children : List AstroNode) (content : Option String)

/-- The `parse` result as the renderers read it. -/
structure RootNode where
  frontmatter : Option String
  children : List AstroNode

/-- `node.attributes.map(...).filter(Boolean).join(' ')` — shared by both
renderers. -/
def attrsString (attributes : List AstroAttr) : String :=
  String.intercalate " "
    ((attributes.map fun attr =>
      match attr.kind with
      | AttrKind.quoted => attr.name ++ "=\"" ++ attr.value ++ "\""
      | AttrKind.emptyAttr => attr.name
      | AttrKind.otherKind => "").filter (fun s => !(s == "")))

/-- The fixed void-element list of both renderers. -/
def voidElements : List String := ["img", "br", "hr", "input", "meta", "link"]

/-- `openTag.replace('>', ' />')`: JS string-pattern `replace` rewrites
only the first occurrence. -/
def replaceFirstGtChars : List Char → List Char
  | [] => []
  | c :: rest => if c == '>' then ' ' :: '/' :: '>' :: rest else c :: replaceFirstGtChars rest

def replaceFirstGt (s : String) : String :=
  String.mk (replaceFirstGtChars s.data)

/-- The open tag `attrs ? `<n attrs>` : `<n>``. -/
def openTagOf (name : String) (attributes : List AstroAttr) : String :=
  let attrs := attrsString attributes
  if truthy attrs then "<" ++ name ++ " " ++ attrs ++ ">" else "<" ++ name ++ ">"

/-- JS `String(x)` on a non-primitive object (an AST node is a plain
object without a custom `toString`). -/
def jsStringOfObject (_ : AstroNode) : String := "[object Object]"

/-- Left and right curly brace characters (JS `{` / `}`). -/
def braceL : Char := Char.ofNat 123

def braceR : Char := Char.ofNat 125

namespace ParserRendererJS

mutual

/-- `nodeToHTML` of the JS parser renderer: children joined with `''`,
expressions serialized from `node.value`, unknown node types (including
style and frontmatter nodes) fall through to `return ''`. -/
def nodeToHTML : AstroNode → String
  | AstroNode.text v => v
  | AstroNode.element name attributes children =>
    let openTag := openTagOf name attributes
    if children.length = 0 then
      if name ∈ voidElements then replaceFirstGt openTag
      else openTag ++ "</" ++ name ++ ">"
    else openTag ++ nodesToHTML children ++ "</" ++ name ++ ">"
  | AstroNode.component name => "<!-- Component: " ++ name ++ " -->"
  | AstroNode.expression v => String.mk (braceL :: v.data ++ [braceR])
  | AstroNode.frontmatterNode _ => ""
  | AstroNode.styleNode _ _ _ => ""

/-- `children.map((child) => this.nodeToHTML(child)).join('')`. -/
def nodesToHTML : List AstroNode → String
  | [] => ""
  | n :: ns => nodeToHTML n ++ nodesToHTML ns

end

end ParserRendererJS

namespace ParserRendererTS

/-- The text content gathered from a style node's children. -/
def styleChildText : List AstroNode → String
  | [] => ""
  | AstroNode.text v :: ns => v ++ styleChildText ns
  | _ :: ns => styleChildText ns

mutual

/-- `nodeToHTML` of the TS parser renderer (`src/utils/parser-renderer.ts`):
children joined with `'\n'`, style nodes serialized with their content,
and expressions serialized through JS `String(node)` on the node object. -/
def nodeToHTML : AstroNode → String
  | AstroNode.text v => v
  | AstroNode.element name attributes children =>
    let openTag := openTagOf name attributes
    if children.length = 0 then
      if name ∈ voidElements then replaceFirstGt openTag
      else openTag ++ "</" ++ name ++ ">"
    else
      openTag ++ String.intercalate "\n" (nodesToHTMLList children) ++ "</" ++ name ++ ">"
  | AstroNode.component name => "<!-- Component: " ++ name ++ " -->"
  | AstroNode.expression v =>
    String.mk (braceL :: (jsStringOfObject (AstroNode.expression v)).data ++ [braceR])
  | AstroNode.frontmatterNode _ => ""
  | AstroNode.styleNode attributes children content =>
    let attrs := attrsString attributes
    let openTag := if truthy attrs then "<style " ++ attrs ++ ">" else "<style>"
    let fromChildren := styleChildText children
    let directContent := match content with
      | some c => c
      | none => ""
    openTag ++ (if truthy fromChildren then fromChildren else directContent) ++ "</style>"

/-- `children.map((child) => this.nodeToHTML(child))`, joined with `'\n'`
by the caller. -/
def nodesToHTMLList : List AstroNode → List String
  | [] => []
  | n :: ns => nodeToHTML n :: nodesToHTMLList ns

end

end ParserRendererTS

/-! ### Frontmatter extraction and `{name}` substitution

The shared regex `(?:const|let|var)\s+(\w+)\s*=\s*["']([^"']+)["']`,
applied with `matchAll` (left to right, non-overlapping, continuing
after each match); assignments fill a JS record, a re-assigned key keeps
its first insertion position with the latest value. -/

def isQuoteChar (c : Char) : Bool := c == '"' || c == Char.ofNat 39

/-- The `(?:const|let|var)` alternation at the head of `l` (the three
keywords start with distinct letters, so the first-choice semantics of
the alternation is plain first-match). -/
def keywordAt (l : List Char) : Option (List Char) :=
  if litPrefix "const".toList l then some (List.drop 5 l)
  else if litPrefix "let".toList l then some (List.drop 3 l)
  else if litPrefix "var".toList l then some (List.drop 3 l)
  else none

/-- Does the declaration regex match at the head of `l`?  On success,
the captured name and value plus the remainder after the match. -/
def matchVarDeclAt (l : List Char) : Option (String × String × List Char) :=
  match keywordAt l with
  | none => none
  | some r1 =>
    let ws1 := r1.takeWhile isJsSpace
    if ws1.length = 0 then none
    else
      let r2 := List.drop ws1.length r1
      let name := r2.takeWhile isWordChar
      if name.length = 0 then none
      else
        let r3 := List.drop name.length r2
        let r4 := List.drop (r3.takeWhile isJsSpace).length r3
        match r4 with
        | c :: r5 =>
          if c == '=' then
            let r6 := List.drop (r5.takeWhile isJsSpace).length r5
            match r6 with
            | q :: r7 =>
              if isQuoteChar q then
                let v := r7.takeWhile (fun ch => !(isQuoteChar ch))
                if v.length = 0 then none
                else
                  match List.drop v.length r7 with
                  | q2 :: r8 =>
                    if isQuoteChar q2 then some (String.mk name, String.mk v, r8)
                    else none
                  | [] => none
              else none
            | [] => none
          else none
        | [] => none

/-- `matchAll` of the declaration regex: all matches left to right. -/
def scanVarDecls : Nat → List Char → List (String × String)
  | 0, _ => []
  | _ + 1, [] => []
  | fuel + 1, c :: rest =>
    match matchVarDeclAt (c :: rest) with
    | some (n, v, rem) => (n, v) :: scanVarDecls fuel rem
    | none => scanVarDecls fuel rest

/-- JS object property assignment: overwrite in place or append. -/
def recordSet (r : List (String × String)) (k v : String) : List (String × String) :=
  if List.any r (fun e => e.1 == k) then
    List.map (fun e => if e.1 == k then (k, v) else e) r
  else r ++ [(k, v)]

/-- `extractFrontmatter`: no frontmatter gives `{}`; otherwise every
regex match fills `vars[match[1]] = match[2]`. -/
def extractFrontmatter (code : Option String) : List (String × String) :=
  match code with
  | none => []
  | some c =>
    (scanVarDecls c.data.length c.data).foldl (fun r m => recordSet r m.1 m.2) []

/-- The matcher of the literal pattern `{key}` (the TS version escapes
regex metacharacters in `key` first, so both versions match the literal
braced key; keys captured by `\w+` contain no metacharacters anyway). -/
def matchBracedKeyAt (key rep : List Char) (l : List Char) :
    Option (List Char × List Char) :=
  let pat := braceL :: key ++ [braceR]
  if litPrefix pat l then some (rep, List.drop pat.length l) else none

/-- One global `html.replace(new RegExp('\{key\}', 'g'), value)`. -/
def replaceVar (html : String) (key value : String) : String :=
  String.mk (scanReplaceAux (matchBracedKeyAt key.data value.data) html.data.length html.data)

/-- `replaceFrontmatterVars(html, vars)`: one global replace per entry of
the record, in insertion order. -/
def replaceFrontmatterVars (html : String) (vars : List (String × String)) : String :=
  vars.foldl (fun h kv => replaceVar h kv.1 kv.2) html

/-- `render` of the JS parser renderer (file reading and `parse` are the
external collaborator; `ast` is its result). -/
def ParserRendererJS.render (ast : RootNode) : String :=
  let vars := extractFrontmatter ast.frontmatter
  let html := ParserRendererJS.nodesToHTML ast.children
  replaceFrontmatterVars html vars

/-- `render` of the TS parser renderer: top-level children joined with
`'\n'`. -/
def ParserRendererTS.render (ast : RootNode) : String :=
  let vars := extractFrontmatter ast.frontmatter
  let html := String.intercalate "\n" (ParserRendererTS.nodesToHTMLList ast.children)
  replaceFrontmatterVars html vars

/-! ## Theorem for C2 -/

/-- The parse tree of the spec's `Footer` scenario: frontmatter
`const year = "2024"`, template `<p>{year}</p>` (a `p` element with one
expression child holding `year`). -/
def footerAst : RootNode :=
  { frontmatter := some "\nconst year = \"2024\"\n"
    children := [AstroNode.element "p" [] [AstroNode.expression "year"]] }

/-- C2 (code bug): the JS parser renderer renders the `Footer` scenario
to `<p>2024</p>` as the spec states, but the TS parser renderer — the
one `src/index.ts` uses — serializes the expression node through JS
`String(node)`, yielding `<p>{[object Object]}</p>`, which the
`{year}` substitution then never rewrites. -/
theorem footer_render_structural :
    ParserRendererJS.render footerAst = "<p>2024</p>" ∧
    ParserRendererTS.render footerAst =
      String.mk ('<' :: 'p' :: '>' :: braceL :: "[object Object]".data ++
        braceR :: "</p>".data) := by
  constructor
  · decide
  · decide

/-! ## Client loader — `src/utils/LazyLoader.ts` (`LazyHTMLLoader`)

State and effects of `load(componentName)`.  The browser environment
(fetch outcomes per URL and attempt, stylesheet `<link>` element load
success, `response.json()` manifest parsing, secondary assets observed
by the `PerformanceObserver`) is an explicit oracle `NetEnv`.  Durations
measured with `performance.now()` are opaque rationals supplied as
parameters.  `requests` lists every URL the call touches over the
network: fragment fetches (one entry per attempt), manifest fetches,
and stylesheet link/preload elements. -/

/-- The mutable `this.stats` record. -/
structure LoaderStats where
  totalLoads : Nat
  cacheHits : Nat
  cacheMisses : Nat
  errors : Nat
  totalLoadTime : ℚ
  totalBytes : Nat
deriving DecidableEq

/-- The resolved `Required<LazyLoaderConfig>` (callbacks are recorded as
events instead; `debug` only logs; `retryDelay` only times the sleeps
between attempts, which the model does not measure). -/
structure LoaderConfig where
  baseUrl : String
  cssModules : Bool
  manifestUrl : String
  baseCssUrl : String
  legacyCssUrl : String
  preloadCSS : Bool
  cacheHTML : Bool
  enableRetry : Bool
  maxRetries : Nat
  retryDelay : Nat
deriving DecidableEq

/-- The loader's mutable fields.  `config` is included because
`loadManifest` mutates `this.config.cssModules` on manifest failure. -/
structure LoaderState where
  config : LoaderConfig
  htmlCache : List (String × String)
  cssCache : List String
  manifest : Option (List (String × String))
  manifestLoaded : Bool
  baseCssLoaded : Bool
  legacyCssLoaded : Bool
  stats : LoaderStats
deriving DecidableEq

/-- The browser/network oracle. -/
structure NetEnv where
  fetchOutcome : String → Nat → FetchOutcome
  linkOk : String → Bool
  parseManifest : String → Option (List (String × String))
  secondaryAssetBytes : List Nat

/-- JS `Map.get` / object property lookup. -/
def lookupStr (m : List (String × String)) (k : String) : Option String :=
  (List.find? (fun e => e.1 == k) m).map (fun e => e.2)

/-- A plain `await fetch(url)`: resolves with the response (ok or not)
or rejects. -/
def singleFetch (o : FetchOutcome) : Except String FetchResponse :=
  match o with
  | FetchOutcome.resp r => Except.ok r
  | FetchOutcome.netError e => Except.error e

/-- `enableRetry ? this.fetchWithRetry(url) : fetch(url)`, together with
the URL request issued per attempt. -/
def fetchUrl (env : NetEnv) (enableRetry : Bool) (maxRetries : Nat) (url : String) :
    Except String FetchResponse × List String :=
  if enableRetry then
    let r := fetchWithRetry (env.fetchOutcome url) maxRetries
    (r.1, List.replicate r.2 url)
  else
    (singleFetch (env.fetchOutcome url 1), [url])

/-- `loadManifest()`: one-shot; any failure (fetch rejection, non-ok
response, JSON parse error) is caught, degrades `cssModules` to legacy
mode for the session, and marks the manifest as loaded. -/
def loadManifest (env : NetEnv) (s : LoaderState) : LoaderState × List String :=
  if s.manifestLoaded then (s, [])
  else
    let fr := fetchUrl env s.config.enableRetry s.config.maxRetries s.config.manifestUrl
    match fr.1 with
    | Except.error _ =>
      ({ s with config := { s.config with cssModules := false }, manifestLoaded := true }, fr.2)
    | Except.ok r =>
      if !r.ok then
        ({ s with config := { s.config with cssModules := false }, manifestLoaded := true }, fr.2)
      else
        match env.parseManifest r.body with
        | some m => ({ s with manifest := some m, manifestLoaded := true }, fr.2)
        | none =>
          ({ s with config := { s.config with cssModules := false }, manifestLoaded := true }, fr.2)

/-- `loadBaseCSS()` (CSS modules mode): load the manifest, then attach a
stylesheet `<link>` (plus a preload link when configured) for the base
CSS; resolves silently when the manifest is unavailable. -/
def loadBaseCSS (env : NetEnv) (s : LoaderState) :
    Except String Unit × LoaderState × List String :=
  if s.baseCssLoaded then (Except.ok (), s, [])
  else
    let ml := loadManifest env s
    let s1 := ml.1
    match s1.manifest with
    | none => (Except.ok (), s1, ml.2)
    | some _ =>
      let preloadReqs := if s1.config.preloadCSS then [s1.config.baseCssUrl] else []
      if env.linkOk s1.config.baseCssUrl then
        (Except.ok (), { s1 with baseCssLoaded := true },
          ml.2 ++ preloadReqs ++ [s1.config.baseCssUrl])
      else
        (Except.error "Failed to load base CSS", s1,
          ml.2 ++ preloadReqs ++ [s1.config.baseCssUrl])

/-- `loadComponentCSS(componentName)`: look the component up in the
manifest and load its stylesheet once (`this.cssCache` is load-once). -/
def loadComponentCSS (env : NetEnv) (s : LoaderState) (componentName : String) :
    Except String Unit × LoaderState × List String :=
  if !s.config.cssModules then (Except.ok (), s, [])
  else
    match s.manifest with
    | none => (Except.ok (), s, [])
    | some m =>
      match lookupStr m componentName with
      | none => (Except.ok (), s, [])
      | some cssFile =>
        if cssFile ∈ s.cssCache then (Except.ok (), s, [])
        else
          let cssUrl := s.config.baseUrl ++ "/" ++ cssFile
          let preloadReqs := if s.config.preloadCSS then [cssUrl] else []
          if env.linkOk cssUrl then
            (Except.ok (), { s with cssCache := s.cssCache ++ [cssFile] },
              preloadReqs ++ [cssUrl])
          else
            (Except.error ("Failed to load CSS: " ++ cssFile), s, preloadReqs ++ [cssUrl])

/-- `loadLegacyCSS()`: the single shared stylesheet, loaded at most once
per session. -/
def loadLegacyCSS (env : NetEnv) (s : LoaderState) :
    Except String Unit × LoaderState × List String :=
  if s.legacyCssLoaded then (Except.ok (), s, [])
  else
    let url := s.config.legacyCssUrl
    let preloadReqs := if s.config.preloadCSS then [url] else []
    if env.linkOk url then
      (Except.ok (), { s with legacyCssLoaded := true }, preloadReqs ++ [url])
    else
      (Except.error "Failed to load lazy components CSS", s, preloadReqs ++ [url])

/-- Observable behaviour of one `load(componentName)` call. -/
structure LoadOutcome where
  result : Except String String
  state : LoaderState
  requests : List String
  onLoadEvents : List (String × ℚ × Nat × Bool)
  onErrorEvents : List String

/-- `load(componentName)` from `src/utils/LazyLoader.ts`.  The cache-hit
branch returns the stored HTML at once; the miss branch loads CSS (all
CSS failures are swallowed by `.catch(console.warn)`), fetches the
fragment, caches it when enabled, and adds the fragment bytes plus the
passively observed secondary-asset bytes to `totalBytes`.  `Blob.size`
of an HTML string is its UTF-8 byte count. -/
def load (env : NetEnv) (s : LoaderState) (componentName : String) (duration : ℚ) :
    LoadOutcome :=
  if s.config.cacheHTML && (lookupStr s.htmlCache componentName).isSome then
    let html := (lookupStr s.htmlCache componentName).getD ""
    let bytes := html.utf8ByteSize
    let stats1 := { s.stats with
      cacheHits := s.stats.cacheHits + 1
      totalLoads := s.stats.totalLoads + 1
      totalLoadTime := s.stats.totalLoadTime + duration }
    { result := Except.ok html
      state := { s with stats := stats1 }
      requests := []
      onLoadEvents := [(componentName, duration, bytes, true)]
      onErrorEvents := [] }
  else
    let sMiss := { s with stats := { s.stats with cacheMisses := s.stats.cacheMisses + 1 } }
    let cssStep : LoaderState × List String :=
      if sMiss.config.cssModules then
        let b := loadBaseCSS env sMiss
        let c := loadComponentCSS env b.2.1 componentName
        (c.2.1, b.2.2 ++ c.2.2)
      else
        let leg := loadLegacyCSS env sMiss
        (leg.2.1, leg.2.2)
    let s2 := cssStep.1
    let url := s2.config.baseUrl ++ "/" ++ componentName ++ ".html"
    let fr := fetchUrl env s2.config.enableRetry s2.config.maxRetries url
    match fr.1 with
    | Except.error e =>
      { result := Except.error e
        state := { s2 with stats := { s2.stats with errors := s2.stats.errors + 1 } }
        requests := cssStep.2 ++ fr.2
        onLoadEvents := []
        onErrorEvents := [componentName] }
    | Except.ok r =>
      if !r.ok then
        { result := Except.error ("HTTP " ++ toString r.status)
          state := { s2 with stats := { s2.stats with errors := s2.stats.errors + 1 } }
          requests := cssStep.2 ++ fr.2
          onLoadEvents := []
          onErrorEvents := [componentName] }
      else
        let html := r.body
        let bytes := html.utf8ByteSize
        let s3 :=
          if s2.config.cacheHTML then
            { s2 with htmlCache := recordSet s2.htmlCache componentName html }
          else s2
        let secondaryTotal := env.secondaryAssetBytes.foldl (fun a b => a + b) 0
        let stats3 := { s3.stats with
          totalLoads := s3.stats.totalLoads + 1
          totalLoadTime := s3.stats.totalLoadTime + duration
          totalBytes := s3.stats.totalBytes + bytes + secondaryTotal }
        { result := Except.ok html
          state := { s3 with stats := stats3 }
          requests := cssStep.2 ++ fr.2
          onLoadEvents := [(componentName, duration, bytes, false)]
          onErrorEvents := [] }

/-- The `LoadStats` record returned by `getStats()`. -/
structure LoadStats where
  totalLoads : Nat
  cacheHits : Nat
  cacheMisses : Nat
  errors : Nat
  averageLoadTime : ℚ
  totalBytes : Nat
deriving DecidableEq

/-- `getStats()`: `averageLoadTime` is `totalLoadTime / totalLoads`
guarded by `totalLoads > 0`. -/
def getStats (s : LoaderStats) : LoadStats :=
  { totalLoads := s.totalLoads
    cacheHits := s.cacheHits
    cacheMisses := s.cacheMisses
    errors := s.errors
    averageLoadTime :=
      if s.totalLoads > 0 then s.totalLoadTime / (s.totalLoads : ℚ) else 0
    totalBytes := s.totalBytes }

/-! ## Theorems for C8, C9 and C10 -/

/-- C8: on a cache hit with HTML caching enabled, `load` returns the
cached HTML, records a cache hit, and issues no network request at all
(no fragment fetch, no manifest fetch, no stylesheet link). -/
theorem load_cache_hit_no_network (env : NetEnv) (s : LoaderState)
    (componentName html : String) (duration : ℚ)
    (hc : s.config.cacheHTML = true)
    (hh : lookupStr s.htmlCache componentName = some html) :
    (load env s componentName duration).result = Except.ok html ∧
    (load env s componentName duration).requests = [] ∧
    (load env s componentName duration).state.stats.cacheHits = s.stats.cacheHits + 1 := by
  unfold load
  simp [hc, hh]

/-- A concrete environment with the network entirely down. -/
def deadEnv : NetEnv :=
  { fetchOutcome := fun _ _ => FetchOutcome.netError "network down"
    linkOk := fun _ => false
    parseManifest := fun _ => none
    secondaryAssetBytes := [] }

/-- A loader state holding `Footer` in its HTML cache, with the default
configuration. -/
def cachedFooterState : LoaderState :=
  { config :=
      { baseUrl := "/prerendered"
        cssModules := false
        manifestUrl := "/prerendered/manifest.json"
        baseCssUrl := "/prerendered/base.css"
        legacyCssUrl := "/prerendered/lazy-components.css"
        preloadCSS := false
        cacheHTML := true
        enableRetry := true
        maxRetries := 3
        retryDelay := 1000 }
    htmlCache := [("Footer", "<p>footer</p>")]
    cssCache := []
    manifest := none
    manifestLoaded := false
    baseCssLoaded := false
    legacyCssLoaded := false
    stats :=
      { totalLoads := 4, cacheHits := 1, cacheMisses := 3, errors := 0,
        totalLoadTime := 20, totalBytes := 900 } }

/-- Witness for `load_cache_hit_no_network`: even with the network dead,
the cached `Footer` is served with zero requests. -/
theorem load_cache_hit_no_network_witness :
    (load deadEnv cachedFooterState "Footer" 5).result = Except.ok "<p>footer</p>" ∧
    (load deadEnv cachedFooterState "Footer" 5).requests = [] ∧
    (load deadEnv cachedFooterState "Footer" 5).state.stats.cacheHits =
      cachedFooterState.stats.cacheHits + 1 :=
  load_cache_hit_no_network deadEnv cachedFooterState "Footer" "<p>footer</p>" 5
    rfl (by decide)

/-- C9: on the cache-hit path, `totalLoads` and `cacheHits` each grow by
one while `totalBytes` is untouched; the fragment's byte size is only
reported through the `onLoad` callback. -/
theorem load_cache_hit_stats (env : NetEnv) (s : LoaderState)
    (componentName html : String) (duration : ℚ)
    (hc : s.config.cacheHTML = true)
    (hh : lookupStr s.htmlCache componentName = some html) :
    (load env s componentName duration).state.stats.totalLoads = s.stats.totalLoads + 1 ∧
    (load env s componentName duration).state.stats.cacheHits = s.stats.cacheHits + 1 ∧
    (load env s componentName duration).state.stats.totalBytes = s.stats.totalBytes ∧
    (load env s componentName duration).onLoadEvents =
      [(componentName, duration, html.utf8ByteSize, true)] := by
  unfold load
  simp [hc, hh]

/-- Witness for `load_cache_hit_stats` on the concrete cached state. -/
theorem load_cache_hit_stats_witness :
    (load deadEnv cachedFooterState "Footer" 5).state.stats.totalLoads =
      cachedFooterState.stats.totalLoads + 1 ∧
    (load deadEnv cachedFooterState "Footer" 5).state.stats.cacheHits =
      cachedFooterState.stats.cacheHits + 1 ∧
    (load deadEnv cachedFooterState "Footer" 5).state.stats.totalBytes =
      cachedFooterState.stats.totalBytes ∧
    (load deadEnv cachedFooterState "Footer" 5).onLoadEvents =
      [("Footer", 5, ("<p>footer</p>" : String).utf8ByteSize, true)] :=
  load_cache_hit_stats deadEnv cachedFooterState "Footer" "<p>footer</p>" 5
    rfl (by decide)

/-- C10: `getStats` never divides by zero — `averageLoadTime` is `0`
when `totalLoads` is zero, and otherwise is exactly the quotient
`totalLoadTime / totalLoads` (so multiplying back by `totalLoads`
recovers `totalLoadTime`). -/
theorem getStats_average_safe (s : LoaderStats) :
    (s.totalLoads = 0 → (getStats s).averageLoadTime = 0) ∧
    (0 < s.totalLoads →
      (getStats s).averageLoadTime * (s.totalLoads : ℚ) = s.totalLoadTime) := by
  constructor
  · intro h
    unfold getStats
    simp [h]
  · intro h
    unfold getStats
    simp only [h, if_pos]
    have hne : ((s.totalLoads : ℚ)) ≠ 0 := by
      exact_mod_cast Nat.pos_iff_ne_zero.mp h
    field_simp

/-- A stats record with two completed loads. -/
def statsTwoLoads : LoaderStats :=
  { totalLoads := 2, cacheHits := 1, cacheMisses := 1, errors := 0,
    totalLoadTime := 10, totalBytes := 512 }

/-- A fresh stats record. -/
def statsFresh : LoaderStats :=
  { totalLoads := 0, cacheHits := 0, cacheMisses := 0, errors := 0,
    totalLoadTime := 0, totalBytes := 0 }

/-- Witness for `getStats_average_safe` at a fresh and a used recorder. -/
theorem getStats_average_safe_witness :
    (getStats statsFresh).averageLoadTime = 0 ∧
    (getStats statsTwoLoads).averageLoadTime * (statsTwoLoads.totalLoads : ℚ) =
      statsTwoLoads.totalLoadTime :=
  ⟨(getStats_average_safe statsFresh).1 rfl,
   (getStats_average_safe statsTwoLoads).2 (by decide)⟩

end Prerender
